import Mathlib

/-!
Verification development for the disk-scheduling engine
(src/lib/algorithms.ts) and its playback / aggregation layer
(src/components/DiskScheduler.tsx).

Cylinders, sectors and seek counts are JS numbers that stay integral in
this code; they are embedded as `Int`.  The rotational-delay and
operational-time arithmetic is embedded over `ℚ` (the constants 2 and
8.33 are exact decimals).  JS `Array.prototype.sort` with a `a-b` style
comparator is a stable ascending sort by the compared key; it is
embedded as the stable insertion sort `sortStable` below.
-/

namespace DiskSim

/-- Mirrors the DiskRequest record of algorithms.ts. -/
structure DiskRequest where
  id : String
  cylinder : Int
  sector : Int
deriving Repr, DecidableEq

/-- Mirrors the DiskResult record of algorithms.ts. -/
structure DiskResult where
  sequence : List Int
  steps : List DiskRequest
  totalSeekCount : Int
  averageSeekTime : ℚ
  totalRotationTime : ℚ
  totalOperationalTime : ℚ
deriving Repr, DecidableEq

/-- Scan direction argument of the SCAN-family algorithms. -/
inductive Direction where
  | left
  | right
deriving Repr, DecidableEq

def SEEK_TIME_PER_TRACK : ℚ := 2

def ROTATION_SPEED_MS : ℚ := 833 / 100

/-- Mirrors calculateRotationalDelay of algorithms.ts. -/
def calculateRotationalDelay (currentSector targetSector : Int) : ℚ :=
  let diff := targetSector - currentSector
  let diff2 := if diff < 0 then diff + 360 else diff
  ((diff2 : ℚ) / 360) * ROTATION_SPEED_MS

/-- Stable insertion of an element in front of the first entry with a
key at least as large; the insertion step of the stable sort that
embeds JS Array.prototype.sort with an a-minus-b comparator. -/
def insertLe {α β : Type} [LinearOrder β] (key : α → β) (x : α) : List α → List α
  | [] => [x]
  | y :: ys => if key x ≤ key y then x :: y :: ys else y :: insertLe key x ys

/-- Stable ascending sort by a key, embedding JS Array.prototype.sort
with the comparator fun a b => key a - key b. -/
def sortStable {α β : Type} [LinearOrder β] (key : α → β) : List α → List α
  | [] => []
  | x :: xs => insertLe key x (sortStable key xs)

/-- Ascending stable sort by cylinder: the comparator
(a, b) => a.cylinder - b.cylinder. -/
def sortAsc (l : List DiskRequest) : List DiskRequest :=
  sortStable (fun r => r.cylinder) l

/-- Descending stable sort by cylinder: the comparator
(a, b) => b.cylinder - a.cylinder. -/
def sortDesc (l : List DiskRequest) : List DiskRequest :=
  sortStable (fun r => -r.cylinder) l

/-- The mutable locals shared by every algorithm's walk:
currentCyl, currentSec, seekCount, rotationTime, sequence, steps. -/
structure WalkState where
  currentCyl : Int
  currentSec : Int
  seekCount : Int
  rotationTime : ℚ
  sequence : List Int
  steps : List DiskRequest
deriving Repr

/-- The synthetic start pseudo-request pushed first into steps. -/
def startStep (initialHead : Int) : DiskRequest :=
  { id := "start", cylinder := initialHead, sector := 0 }

/-- Initial walk state: head at initialHead, sector 0, zero totals. -/
def initState (initialHead : Int) : WalkState :=
  { currentCyl := initialHead
    currentSec := 0
    seekCount := 0
    rotationTime := 0
    sequence := [initialHead]
    steps := [startStep initialHead] }

/-- One iteration of the shared accumulation block: add the seek
distance and rotational delay for req, move the head, record the
request in sequence and steps. -/
def serve (s : WalkState) (req : DiskRequest) : WalkState :=
  { currentCyl := req.cylinder
    currentSec := req.sector
    seekCount := s.seekCount + |req.cylinder - s.currentCyl|
    rotationTime := s.rotationTime + calculateRotationalDelay s.currentSec req.sector
    sequence := s.sequence ++ [req.cylinder]
    steps := s.steps ++ [req] }

/-- Mirrors the processQueue closure / forEach loops of algorithms.ts. -/
def processQueue (s : WalkState) (queue : List DiskRequest) : WalkState :=
  queue.foldl serve s

/-- The common return block of every algorithm. -/
def mkResult (s : WalkState) (numReqs : Nat) : DiskResult :=
  { sequence := s.sequence
    steps := s.steps
    totalSeekCount := s.seekCount
    averageSeekTime := (s.seekCount : ℚ) / (max 1 numReqs : ℚ)
    totalRotationTime := s.rotationTime
    totalOperationalTime := (s.seekCount : ℚ) * SEEK_TIME_PER_TRACK + s.rotationTime }

/-- Mirrors calculateFCFS. -/
def calculateFCFS (initialHead : Int) (reqs : List DiskRequest) : DiskResult :=
  mkResult (processQueue (initState initialHead) reqs) reqs.length

/-- The inner scan of calculateSSTF's while body: the first pending
request whose cylinder distance to the current head is minimal
(the index scan updates only on a strictly smaller distance). -/
def sstfPick (cur : Int) (p0 : DiskRequest) (ps : List DiskRequest) : DiskRequest :=
  ps.foldl (fun best r => if |r.cylinder - cur| < |best.cylinder - cur| then r else best) p0

/-- The while loop of calculateSSTF, with explicit fuel equal to the
initial pending length; each iteration serves the closest pending
request and removes it (the splice call). -/
def sstfLoop : Nat → WalkState → List DiskRequest → WalkState
  | 0, s, _ => s
  | _ + 1, s, [] => s
  | n + 1, s, p0 :: ps =>
    let next := sstfPick s.currentCyl p0 ps
    sstfLoop n (serve s next) ((p0 :: ps).erase next)

/-- Mirrors calculateSSTF. -/
def calculateSSTF (initialHead : Int) (reqs : List DiskRequest) : DiskResult :=
  mkResult (sstfLoop reqs.length (initState initialHead) reqs) reqs.length

/-- SCAN's boundary bounce to cylinder 0 in the left branch of
calculateSCAN: seekCount += currentCyl, head to 0, sequence records 0,
no step recorded. -/
def scanBoundL (s : WalkState) : WalkState :=
  { s with seekCount := s.seekCount + s.currentCyl
           currentCyl := 0
           sequence := s.sequence ++ [0] }

/-- SCAN's boundary bounce to cylinder diskSize-1 in the right branch
of calculateSCAN. -/
def scanBoundR (diskSize : Int) (s : WalkState) : WalkState :=
  { s with seekCount := s.seekCount + ((diskSize - 1) - s.currentCyl)
           currentCyl := diskSize - 1
           sequence := s.sequence ++ [diskSize - 1] }

/-- The left partition of SCAN and LOOK: requests strictly below the
initial head, sorted descending (nearest first). -/
def scanLeftQ (initialHead : Int) (reqs : List DiskRequest) : List DiskRequest :=
  sortDesc (reqs.filter (fun r => r.cylinder < initialHead))

/-- The right partition of SCAN and LOOK: requests at or above the
initial head, sorted ascending. -/
def scanRightQ (initialHead : Int) (reqs : List DiskRequest) : List DiskRequest :=
  sortAsc (reqs.filter (fun r => initialHead ≤ r.cylinder))

/-- Mirrors calculateSCAN. -/
def calculateSCAN (initialHead : Int) (reqs : List DiskRequest) (diskSize : Int)
    (direction : Direction) : DiskResult :=
  let left := scanLeftQ initialHead reqs
  let right := scanRightQ initialHead reqs
  match direction with
  | .left =>
    let s1 := processQueue (initState initialHead) left
    if right = [] then mkResult s1 reqs.length
    else mkResult (processQueue (scanBoundL s1) (sortAsc right)) reqs.length
  | .right =>
    let s1 := processQueue (initState initialHead) right
    if left = [] then mkResult s1 reqs.length
    else mkResult (processQueue (scanBoundR diskSize s1) (sortDesc left)) reqs.length

/-- C-SCAN's combined bounce-and-jump in the right branch of
calculateCSCAN: seek to the right edge plus the jump back to 0, the
two synthetic sequence entries diskSize-1 then 0, no steps recorded. -/
def cscanJumpR (diskSize : Int) (s : WalkState) : WalkState :=
  { s with seekCount := s.seekCount + ((diskSize - 1) - s.currentCyl) + (diskSize - 1)
           currentCyl := 0
           sequence := s.sequence ++ [diskSize - 1, 0] }

/-- C-SCAN's combined bounce-and-jump in the left branch of
calculateCSCAN: seek to 0 plus the jump to the right edge, the two
synthetic sequence entries 0 then diskSize-1. -/
def cscanJumpL (diskSize : Int) (s : WalkState) : WalkState :=
  { s with seekCount := s.seekCount + s.currentCyl + (diskSize - 1)
           currentCyl := diskSize - 1
           sequence := s.sequence ++ [0, diskSize - 1] }

/-- The queue served first by calculateCSCAN for each direction:
sort everything by cylinder, then take the side the head sweeps first
(reversed for the left direction). -/
def cscanFirstQ (initialHead : Int) (reqs : List DiskRequest) (direction : Direction) :
    List DiskRequest :=
  match direction with
  | .right => (sortAsc reqs).filter (fun r => initialHead ≤ r.cylinder)
  | .left => ((sortAsc reqs).filter (fun r => r.cylinder ≤ initialHead)).reverse

/-- The queue served by calculateCSCAN after its boundary jump. -/
def cscanSecondQ (initialHead : Int) (reqs : List DiskRequest) (direction : Direction) :
    List DiskRequest :=
  match direction with
  | .right => (sortAsc reqs).filter (fun r => r.cylinder < initialHead)
  | .left => ((sortAsc reqs).filter (fun r => initialHead < r.cylinder)).reverse

/-- Mirrors calculateCSCAN. -/
def calculateCSCAN (initialHead : Int) (reqs : List DiskRequest) (diskSize : Int)
    (direction : Direction) : DiskResult :=
  match direction with
  | .right =>
    let s1 := processQueue (initState initialHead) (cscanFirstQ initialHead reqs .right)
    if cscanSecondQ initialHead reqs .right = [] then mkResult s1 reqs.length
    else mkResult (processQueue (cscanJumpR diskSize s1) (cscanSecondQ initialHead reqs .right)) reqs.length
  | .left =>
    let s1 := processQueue (initState initialHead) (cscanFirstQ initialHead reqs .left)
    if cscanSecondQ initialHead reqs .left = [] then mkResult s1 reqs.length
    else mkResult (processQueue (cscanJumpL diskSize s1) (cscanSecondQ initialHead reqs .left)) reqs.length

/-- Mirrors calculateLOOK (same partitioning as calculateSCAN). -/
def calculateLOOK (initialHead : Int) (reqs : List DiskRequest)
    (direction : Direction) : DiskResult :=
  let left := scanLeftQ initialHead reqs
  let right := scanRightQ initialHead reqs
  match direction with
  | .left => mkResult (processQueue (processQueue (initState initialHead) left) right) reqs.length
  | .right => mkResult (processQueue (processQueue (initState initialHead) right) left) reqs.length

/-- C-LOOK's reversal jump: only the landing cylinder is pushed into
sequence; head, seek count and steps are untouched. -/
def clookJump (c : Int) (s : WalkState) : WalkState :=
  { s with sequence := s.sequence ++ [c] }

/-- The first queue served by calculateCLOOK for each direction. -/
def clookFirstQ (initialHead : Int) (reqs : List DiskRequest) (direction : Direction) :
    List DiskRequest :=
  match direction with
  | .right => (sortAsc reqs).filter (fun r => initialHead ≤ r.cylinder)
  | .left => ((sortAsc reqs).filter (fun r => r.cylinder ≤ initialHead)).reverse

/-- The opposite-side queue of calculateCLOOK for each direction; when
it is non-empty the head jumps onto the cylinder of its first entry. -/
def clookSecondQ (initialHead : Int) (reqs : List DiskRequest) (direction : Direction) :
    List DiskRequest :=
  match direction with
  | .right => (sortAsc reqs).filter (fun r => r.cylinder < initialHead)
  | .left => ((sortAsc reqs).filter (fun r => initialHead < r.cylinder)).reverse

/-- The shared body of calculateCLOOK's two branches: serve the first
queue, and when the second queue is non-empty push its first cylinder
as the jump entry and serve it. -/
def clookRun (initialHead : Int) (numReqs : Nat) (first second : List DiskRequest) :
    DiskResult :=
  let s1 := processQueue (initState initialHead) first
  match second with
  | [] => mkResult s1 numReqs
  | l0 :: _ => mkResult (processQueue (clookJump l0.cylinder s1) second) numReqs

/-- Mirrors calculateCLOOK. -/
def calculateCLOOK (initialHead : Int) (reqs : List DiskRequest)
    (direction : Direction) : DiskResult :=
  clookRun initialHead reqs.length (clookFirstQ initialHead reqs direction)
    (clookSecondQ initialHead reqs direction)

/-- Total head movement along a walk that starts at c and visits the
listed cylinders in order. -/
def pathSum (c : Int) : List Int → Int
  | [] => 0
  | x :: xs => |x - c| + pathSum x xs

/-- Sum of absolute successive differences of a list, the quantity the
spec equates with totalSeekCount. -/
def diffSum : List Int → Int
  | [] => 0
  | [_] => 0
  | x :: y :: xs => |y - x| + diffSum (y :: xs)

theorem diffSum_cons : ∀ (c : Int) (l : List Int), diffSum (c :: l) = pathSum c l
  | _, [] => rfl
  | c, x :: xs => by
    have ih := diffSum_cons x xs
    simp [diffSum, pathSum, ih]

theorem pathSum_append : ∀ (c : Int) (l₁ l₂ : List Int),
    pathSum c (l₁ ++ l₂) = pathSum c l₁ + pathSum (l₁.getLastD c) l₂
  | c, [], l₂ => by simp [pathSum, List.getLastD]
  | c, x :: xs, l₂ => by
    show |x - c| + pathSum x (xs ++ l₂) = |x - c| + pathSum x xs + pathSum ((x :: xs).getLastD c) l₂
    rw [pathSum_append x xs l₂, List.getLastD_cons, add_assoc]

theorem diffSum_concat (l : List Int) (x : Int) (hl : l ≠ []) :
    diffSum (l ++ [x]) = diffSum l + |x - l.getLastD 0| := by
  obtain ⟨c, t, rfl⟩ := List.exists_cons_of_ne_nil hl
  rw [List.cons_append, diffSum_cons, pathSum_append, diffSum_cons, List.getLastD_cons]
  simp [pathSum]

theorem getLastD_self_or_mem {α : Type} : ∀ (l : List α) (d : α),
    l.getLastD d = d ∨ l.getLastD d ∈ l
  | [], _ => Or.inl rfl
  | x :: xs, d => by
    rw [List.getLastD_cons]
    rcases getLastD_self_or_mem xs x with h | h
    · rw [h]; exact Or.inr (List.mem_cons_self x xs)
    · exact Or.inr (List.mem_cons_of_mem x h)

theorem getLastD_le {l : List Int} {d B : Int} (hd : d ≤ B) (hl : ∀ x ∈ l, x ≤ B) :
    l.getLastD d ≤ B := by
  rcases getLastD_self_or_mem l d with h | h
  · rw [h]; exact hd
  · exact hl _ h

theorem getLastD_nonneg {l : List Int} {d : Int} (hd : 0 ≤ d) (hl : ∀ x ∈ l, 0 ≤ x) :
    0 ≤ l.getLastD d := by
  rcases getLastD_self_or_mem l d with h | h
  · rw [h]; exact hd
  · exact hl _ h

theorem insertLe_perm {α β : Type} [LinearOrder β] (key : α → β) (x : α) :
    ∀ l : List α, (insertLe key x l).Perm (x :: l)
  | [] => List.Perm.refl _
  | y :: ys => by
    rw [insertLe]
    split
    · exact List.Perm.refl _
    · exact ((insertLe_perm key x ys).cons y).trans (List.Perm.swap x y ys)

theorem sortStable_perm {α β : Type} [LinearOrder β] (key : α → β) :
    ∀ l : List α, (sortStable key l).Perm l
  | [] => List.Perm.refl _
  | x :: xs =>
    (insertLe_perm key x (sortStable key xs)).trans ((sortStable_perm key xs).cons x)

theorem mem_sortStable {α β : Type} [LinearOrder β] {key : α → β} {a : α} {l : List α} :
    a ∈ sortStable key l ↔ a ∈ l :=
  (sortStable_perm key l).mem_iff

theorem insertLe_pairwise {α β : Type} [LinearOrder β] (key : α → β) (x : α) :
    ∀ {l : List α}, l.Pairwise (fun a b => key a ≤ key b) →
      (insertLe key x l).Pairwise (fun a b => key a ≤ key b)
  | [], _ => by simp [insertLe]
  | y :: ys, h => by
    obtain ⟨hy, hys⟩ := List.pairwise_cons.mp h
    rw [insertLe]
    split
    · rename_i hxy
      exact List.pairwise_cons.mpr
        ⟨fun a ha => by
          rcases List.mem_cons.mp ha with rfl | ha
          · exact hxy
          · exact le_trans hxy (hy a ha), h⟩
    · rename_i hxy
      refine List.pairwise_cons.mpr ⟨fun a ha => ?_, insertLe_pairwise key x hys⟩
      rcases List.mem_cons.mp ((insertLe_perm key x ys).mem_iff.mp ha) with rfl | ha
      · exact le_of_lt (lt_of_not_le hxy)
      · exact hy a ha

theorem sortStable_pairwise {α β : Type} [LinearOrder β] (key : α → β) :
    ∀ l : List α, (sortStable key l).Pairwise (fun a b => key a ≤ key b)
  | [] => List.Pairwise.nil
  | x :: xs => insertLe_pairwise key x (sortStable_pairwise key xs)

theorem sortStable_of_pairwise {α β : Type} [LinearOrder β] {key : α → β} :
    ∀ {l : List α}, l.Pairwise (fun a b => key a ≤ key b) → sortStable key l = l
  | [], _ => rfl
  | x :: xs, h => by
    obtain ⟨hx, hxs⟩ := List.pairwise_cons.mp h
    rw [sortStable, sortStable_of_pairwise hxs]
    cases xs with
    | nil => rfl
    | cons y ys => rw [insertLe, if_pos (hx y (List.mem_cons_self y ys))]

theorem sortAsc_idem (l : List DiskRequest) : sortAsc (sortAsc l) = sortAsc l :=
  sortStable_of_pairwise (sortStable_pairwise _ l)

theorem sortDesc_idem (l : List DiskRequest) : sortDesc (sortDesc l) = sortDesc l :=
  sortStable_of_pairwise (sortStable_pairwise _ l)

theorem insertLe_filter {α β : Type} [LinearOrder β] (key : α → β) (x : α) (q : β) :
    ∀ l : List α, (insertLe key x l).filter (fun a => decide (key a = q)) =
      if key x = q then x :: l.filter (fun a => decide (key a = q))
      else l.filter (fun a => decide (key a = q))
  | [] => by
    rw [insertLe]
    by_cases h : key x = q <;> simp [List.filter, h]
  | y :: ys => by
    rw [insertLe]
    split
    · rename_i hxy
      by_cases h : key x = q <;> simp [List.filter_cons, h]
    · rename_i hxy
      have hyx : key y < key x := lt_of_not_le hxy
      by_cases h : key x = q
      · have hy : key y ≠ q := fun hq => absurd (hq.trans h.symm) (ne_of_lt hyx)
        simp [List.filter_cons, h, hy, insertLe_filter key x q ys]
      · simp [List.filter_cons, h, insertLe_filter key x q ys]

theorem mkResult_sequence (s : WalkState) (n : Nat) : (mkResult s n).sequence = s.sequence := rfl

theorem mkResult_steps (s : WalkState) (n : Nat) : (mkResult s n).steps = s.steps := rfl

theorem mkResult_totalSeekCount (s : WalkState) (n : Nat) :
    (mkResult s n).totalSeekCount = s.seekCount := rfl

theorem processQueue_nil (s : WalkState) : processQueue s [] = s := rfl

theorem processQueue_cons (s : WalkState) (r : DiskRequest) (q : List DiskRequest) :
    processQueue s (r :: q) = processQueue (serve s r) q := rfl

theorem processQueue_sequence : ∀ (q : List DiskRequest) (s : WalkState),
    (processQueue s q).sequence = s.sequence ++ q.map (fun r => r.cylinder)
  | [], s => by simp [processQueue]
  | r :: q, s => by
    rw [processQueue_cons, processQueue_sequence q (serve s r)]
    simp [serve]

theorem processQueue_steps : ∀ (q : List DiskRequest) (s : WalkState),
    (processQueue s q).steps = s.steps ++ q
  | [], s => by simp [processQueue]
  | r :: q, s => by
    rw [processQueue_cons, processQueue_steps q (serve s r)]
    simp [serve]

theorem processQueue_currentCyl : ∀ (q : List DiskRequest) (s : WalkState),
    (processQueue s q).currentCyl = (q.map (fun r => r.cylinder)).getLastD s.currentCyl
  | [], s => rfl
  | r :: q, s => by
    rw [processQueue_cons, processQueue_currentCyl q (serve s r), List.map_cons,
      List.getLastD_cons]
    rfl

theorem processQueue_seekCount : ∀ (q : List DiskRequest) (s : WalkState),
    (processQueue s q).seekCount = s.seekCount + pathSum s.currentCyl (q.map (fun r => r.cylinder))
  | [], s => by simp [processQueue, pathSum]
  | r :: q, s => by
    rw [processQueue_cons, processQueue_seekCount q (serve s r)]
    show s.seekCount + |r.cylinder - s.currentCyl| + pathSum r.cylinder (q.map fun r => r.cylinder)
      = s.seekCount + (|r.cylinder - s.currentCyl| + pathSum r.cylinder (q.map fun r => r.cylinder))
    rw [add_assoc]

theorem processQueue_sequence_ne (q : List DiskRequest) (s : WalkState)
    (hs : s.sequence ≠ []) : (processQueue s q).sequence ≠ [] := by
  rw [processQueue_sequence]
  intro h
  exact hs (List.append_eq_nil.mp h).1

theorem processQueue_head? (q : List DiskRequest) (s : WalkState) (hs : s.sequence ≠ []) :
    (processQueue s q).sequence.head? = s.sequence.head? := by
  rw [processQueue_sequence]
  exact List.head?_append_of_ne_nil _ hs

/-- The invariant every walk preserves: a non-empty sequence whose last
entry is the current head, a seek count equal to the successive
difference sum of the sequence, and as many sequence entries as steps. -/
def GoodWalk (s : WalkState) : Prop :=
  s.sequence ≠ [] ∧ s.currentCyl = s.sequence.getLastD 0 ∧
    s.seekCount = diffSum s.sequence ∧ s.sequence.length = s.steps.length

theorem goodWalk_init (h : Int) : GoodWalk (initState h) := by
  refine ⟨by simp [initState], rfl, rfl, rfl⟩

theorem goodWalk_serve {s : WalkState} (hs : GoodWalk s) (r : DiskRequest) :
    GoodWalk (serve s r) := by
  obtain ⟨h1, h2, h3, h4⟩ := hs
  refine ⟨by simp [serve], ?_, ?_, ?_⟩
  · show r.cylinder = (s.sequence ++ [r.cylinder]).getLastD 0
    rw [List.getLastD_concat]
  · show s.seekCount + |r.cylinder - s.currentCyl| = diffSum (s.sequence ++ [r.cylinder])
    rw [diffSum_concat s.sequence r.cylinder h1, h3, h2]
  · show (s.sequence ++ [r.cylinder]).length = (s.steps ++ [r]).length
    simp [h4]

theorem goodWalk_processQueue {s : WalkState} (hs : GoodWalk s) :
    ∀ q : List DiskRequest, GoodWalk (processQueue s q)
  | [] => hs
  | r :: q => goodWalk_processQueue (goodWalk_serve hs r) q

theorem serve_sequence_ne (s : WalkState) (r : DiskRequest) : (serve s r).sequence ≠ [] := by
  simp [serve]

theorem serve_head? (s : WalkState) (r : DiskRequest) (hs : s.sequence ≠ []) :
    (serve s r).sequence.head? = s.sequence.head? :=
  List.head?_append_of_ne_nil _ hs

theorem goodWalk_sstfLoop : ∀ (n : Nat) (s : WalkState) (p : List DiskRequest),
    GoodWalk s → GoodWalk (sstfLoop n s p)
  | 0, _, _, hs => hs
  | _ + 1, _, [], hs => hs
  | n + 1, s, p0 :: ps, hs =>
    goodWalk_sstfLoop n _ _ (goodWalk_serve hs (sstfPick s.currentCyl p0 ps))

theorem sstfLoop_head? : ∀ (n : Nat) (s : WalkState) (p : List DiskRequest),
    s.sequence ≠ [] → (sstfLoop n s p).sequence.head? = s.sequence.head?
  | 0, _, _, _ => rfl
  | _ + 1, _, [], _ => rfl
  | n + 1, s, p0 :: ps, hne => by
    rw [sstfLoop]
    rw [sstfLoop_head? n _ _ (serve_sequence_ne s (sstfPick s.currentCyl p0 ps))]
    exact serve_head? s _ hne

theorem sortStable_eq_nil_iff {α β : Type} [LinearOrder β] {key : α → β} {l : List α} :
    sortStable key l = [] ↔ l = [] := by
  constructor
  · intro h
    have hlen := (sortStable_perm key l).length_eq
    rw [h] at hlen
    exact List.length_eq_zero.mp hlen.symm
  · intro h
    rw [h]
    rfl

theorem scanLeftQ_eq_nil_iff {h : Int} {reqs : List DiskRequest} :
    scanLeftQ h reqs = [] ↔ reqs.filter (fun r => r.cylinder < h) = [] := by
  rw [scanLeftQ, sortDesc]
  exact sortStable_eq_nil_iff

theorem scanRightQ_eq_nil_iff {h : Int} {reqs : List DiskRequest} :
    scanRightQ h reqs = [] ↔ reqs.filter (fun r => h ≤ r.cylinder) = [] := by
  rw [scanRightQ, sortAsc]
  exact sortStable_eq_nil_iff

theorem filter_sortAsc_eq_nil_iff {p : DiskRequest → Bool} {reqs : List DiskRequest} :
    (sortAsc reqs).filter p = [] ↔ reqs.filter p = [] := by
  have hperm : ((sortAsc reqs).filter p).Perm (reqs.filter p) :=
    (sortStable_perm _ reqs).filter p
  constructor
  · intro h
    have := hperm.length_eq
    rw [h] at this
    exact List.length_eq_zero.mp this.symm
  · intro h
    have := hperm.length_eq
    rw [h] at this
    exact List.length_eq_zero.mp this

theorem calculateSCAN_left_nojump (h : Int) (reqs : List DiskRequest) (ds : Int)
    (hr : scanRightQ h reqs = []) :
    calculateSCAN h reqs ds .left
      = mkResult (processQueue (initState h) (scanLeftQ h reqs)) reqs.length := by
  simp [calculateSCAN, hr]

theorem calculateSCAN_left_jump (h : Int) (reqs : List DiskRequest) (ds : Int)
    (hr : scanRightQ h reqs ≠ []) :
    calculateSCAN h reqs ds .left
      = mkResult (processQueue (scanBoundL (processQueue (initState h) (scanLeftQ h reqs)))
          (scanRightQ h reqs)) reqs.length := by
  have hidem : sortAsc (scanRightQ h reqs) = scanRightQ h reqs := by
    rw [scanRightQ, sortAsc_idem]
  simp [calculateSCAN, hr, hidem]

theorem calculateSCAN_right_nojump (h : Int) (reqs : List DiskRequest) (ds : Int)
    (hl : scanLeftQ h reqs = []) :
    calculateSCAN h reqs ds .right
      = mkResult (processQueue (initState h) (scanRightQ h reqs)) reqs.length := by
  simp [calculateSCAN, hl]

theorem calculateSCAN_right_jump (h : Int) (reqs : List DiskRequest) (ds : Int)
    (hl : scanLeftQ h reqs ≠ []) :
    calculateSCAN h reqs ds .right
      = mkResult (processQueue (scanBoundR ds (processQueue (initState h) (scanRightQ h reqs)))
          (scanLeftQ h reqs)) reqs.length := by
  have hidem : sortDesc (scanLeftQ h reqs) = scanLeftQ h reqs := by
    rw [scanLeftQ, sortDesc_idem]
  simp [calculateSCAN, hl, hidem]

theorem calculateCSCAN_right_nojump (h : Int) (reqs : List DiskRequest) (ds : Int)
    (hl : cscanSecondQ h reqs .right = []) :
    calculateCSCAN h reqs ds .right
      = mkResult (processQueue (initState h) (cscanFirstQ h reqs .right)) reqs.length := by
  simp [calculateCSCAN, hl]

theorem calculateCSCAN_right_jump (h : Int) (reqs : List DiskRequest) (ds : Int)
    (hl : cscanSecondQ h reqs .right ≠ []) :
    calculateCSCAN h reqs ds .right
      = mkResult (processQueue
          (cscanJumpR ds (processQueue (initState h) (cscanFirstQ h reqs .right)))
          (cscanSecondQ h reqs .right)) reqs.length := by
  simp [calculateCSCAN, hl]

theorem calculateCSCAN_left_nojump (h : Int) (reqs : List DiskRequest) (ds : Int)
    (hr : cscanSecondQ h reqs .left = []) :
    calculateCSCAN h reqs ds .left
      = mkResult (processQueue (initState h) (cscanFirstQ h reqs .left)) reqs.length := by
  simp [calculateCSCAN, hr]

theorem calculateCSCAN_left_jump (h : Int) (reqs : List DiskRequest) (ds : Int)
    (hr : cscanSecondQ h reqs .left ≠ []) :
    calculateCSCAN h reqs ds .left
      = mkResult (processQueue
          (cscanJumpL ds (processQueue (initState h) (cscanFirstQ h reqs .left)))
          (cscanSecondQ h reqs .left)) reqs.length := by
  simp [calculateCSCAN, hr]

theorem calculateLOOK_left (h : Int) (reqs : List DiskRequest) :
    calculateLOOK h reqs .left
      = mkResult (processQueue (processQueue (initState h) (scanLeftQ h reqs))
          (scanRightQ h reqs)) reqs.length := rfl

theorem calculateLOOK_right (h : Int) (reqs : List DiskRequest) :
    calculateLOOK h reqs .right
      = mkResult (processQueue (processQueue (initState h) (scanRightQ h reqs))
          (scanLeftQ h reqs)) reqs.length := rfl

theorem calculateCLOOK_nojump (h : Int) (reqs : List DiskRequest) (dir : Direction)
    (h2 : clookSecondQ h reqs dir = []) :
    calculateCLOOK h reqs dir
      = mkResult (processQueue (initState h) (clookFirstQ h reqs dir)) reqs.length := by
  rw [calculateCLOOK, h2]
  rfl

theorem calculateCLOOK_jump (h : Int) (reqs : List DiskRequest) (dir : Direction)
    (l0 : DiskRequest) (lt : List DiskRequest) (h2 : clookSecondQ h reqs dir = l0 :: lt) :
    calculateCLOOK h reqs dir
      = mkResult (processQueue
          (clookJump l0.cylinder (processQueue (initState h) (clookFirstQ h reqs dir)))
          (l0 :: lt)) reqs.length := by
  rw [calculateCLOOK, h2]
  rfl

theorem sortStable_filter {α β : Type} [LinearOrder β] (key : α → β) (q : β) :
    ∀ l : List α, (sortStable key l).filter (fun a => decide (key a = q)) =
      l.filter (fun a => decide (key a = q))
  | [] => rfl
  | x :: xs => by
    rw [sortStable, insertLe_filter, List.filter_cons]
    by_cases h : key x = q
    · rw [if_pos h, sortStable_filter key q xs]
      simp [h]
    · rw [if_neg h, sortStable_filter key q xs]
      simp [h]

/-- The seek-accounting part of the walk invariant (no step/sequence
length tie, so it also survives the synthetic boundary pushes). -/
def SeekWalk (s : WalkState) : Prop :=
  s.sequence ≠ [] ∧ s.currentCyl = s.sequence.getLastD 0 ∧ s.seekCount = diffSum s.sequence

theorem goodWalk_seekWalk {s : WalkState} (hs : GoodWalk s) : SeekWalk s :=
  ⟨hs.1, hs.2.1, hs.2.2.1⟩

theorem seekWalk_serve {s : WalkState} (hs : SeekWalk s) (r : DiskRequest) :
    SeekWalk (serve s r) := by
  obtain ⟨h1, h2, h3⟩ := hs
  refine ⟨by simp [serve], ?_, ?_⟩
  · show r.cylinder = (s.sequence ++ [r.cylinder]).getLastD 0
    rw [List.getLastD_concat]
  · show s.seekCount + |r.cylinder - s.currentCyl| = diffSum (s.sequence ++ [r.cylinder])
    rw [diffSum_concat s.sequence r.cylinder h1, h3, h2]

theorem seekWalk_processQueue {s : WalkState} (hs : SeekWalk s) :
    ∀ q : List DiskRequest, SeekWalk (processQueue s q)
  | [] => hs
  | r :: q => seekWalk_processQueue (seekWalk_serve hs r) q

theorem seekWalk_scanBoundL {s : WalkState} (hs : SeekWalk s) (h0 : 0 ≤ s.currentCyl) :
    SeekWalk (scanBoundL s) := by
  obtain ⟨h1, h2, h3⟩ := hs
  refine ⟨?_, ?_, ?_⟩ <;> simp only [scanBoundL]
  · simp [h1]
  · rw [List.getLastD_concat]
  · rw [diffSum_concat s.sequence 0 h1, h3, ← h2, zero_sub, abs_neg, abs_of_nonneg h0]

theorem seekWalk_scanBoundR {s : WalkState} {ds : Int} (hs : SeekWalk s)
    (hb : s.currentCyl ≤ ds - 1) : SeekWalk (scanBoundR ds s) := by
  obtain ⟨h1, h2, h3⟩ := hs
  refine ⟨?_, ?_, ?_⟩ <;> simp only [scanBoundR]
  · simp [h1]
  · rw [List.getLastD_concat]
  · rw [diffSum_concat s.sequence (ds - 1) h1, h3, ← h2,
      abs_of_nonneg (by omega : (0 : Int) ≤ ds - 1 - s.currentCyl)]

theorem seekWalk_cscanJumpR {s : WalkState} {ds : Int} (hs : SeekWalk s)
    (hb : s.currentCyl ≤ ds - 1) (hds : 1 ≤ ds) : SeekWalk (cscanJumpR ds s) := by
  obtain ⟨h1, h2, h3⟩ := hs
  have hsplit : s.sequence ++ [ds - 1, 0] = (s.sequence ++ [ds - 1]) ++ [0] := by simp
  refine ⟨?_, ?_, ?_⟩ <;> simp only [cscanJumpR]
  · simp [h1]
  · rw [hsplit, List.getLastD_concat]
  · rw [hsplit, diffSum_concat _ 0 (by simp [h1]), List.getLastD_concat,
      diffSum_concat s.sequence (ds - 1) h1, h3, ← h2,
      abs_of_nonneg (by omega : (0 : Int) ≤ ds - 1 - s.currentCyl), zero_sub, abs_neg,
      abs_of_nonneg (by omega : (0 : Int) ≤ ds - 1)]

theorem seekWalk_cscanJumpL {s : WalkState} {ds : Int} (hs : SeekWalk s)
    (h0 : 0 ≤ s.currentCyl) (hds : 1 ≤ ds) : SeekWalk (cscanJumpL ds s) := by
  obtain ⟨h1, h2, h3⟩ := hs
  have hsplit : s.sequence ++ [0, ds - 1] = (s.sequence ++ [0]) ++ [ds - 1] := by simp
  refine ⟨?_, ?_, ?_⟩ <;> simp only [cscanJumpL]
  · simp [h1]
  · rw [hsplit, List.getLastD_concat]
  · rw [hsplit, diffSum_concat _ (ds - 1) (by simp [h1]), List.getLastD_concat,
      diffSum_concat s.sequence 0 h1, h3, ← h2, zero_sub, abs_neg, abs_of_nonneg h0,
      sub_zero, abs_of_nonneg (by omega : (0 : Int) ≤ ds - 1)]

theorem diffSum_append (l m : List Int) (hl : l ≠ []) :
    diffSum (l ++ m) = diffSum l + pathSum (l.getLastD 0) m := by
  obtain ⟨c, t, rfl⟩ := List.exists_cons_of_ne_nil hl
  rw [List.cons_append, diffSum_cons, pathSum_append, diffSum_cons, List.getLastD_cons]

theorem mkResult_seek_diffSum {s : WalkState} (hs : SeekWalk s) (n : Nat) :
    (mkResult s n).totalSeekCount = diffSum (mkResult s n).sequence := hs.2.2

theorem mkResult_align {s : WalkState} (hs : GoodWalk s) (n : Nat) :
    (mkResult s n).sequence.length = (mkResult s n).steps.length := hs.2.2.2

theorem mkResult_processQueue_init_lists (h : Int) (Q : List DiskRequest) (n : Nat) :
    (mkResult (processQueue (initState h) Q) n).sequence = h :: Q.map (fun r => r.cylinder) ∧
      (mkResult (processQueue (initState h) Q) n).steps = startStep h :: Q := by
  constructor
  · rw [mkResult_sequence, processQueue_sequence]
    rfl
  · rw [mkResult_steps, processQueue_steps]
    rfl

theorem mkResult_processQueue2_lists (h : Int) (Q1 Q2 : List DiskRequest) (n : Nat) :
    (mkResult (processQueue (processQueue (initState h) Q1) Q2) n).sequence
        = (h :: Q1.map (fun r => r.cylinder)) ++ Q2.map (fun r => r.cylinder) ∧
      (mkResult (processQueue (processQueue (initState h) Q1) Q2) n).steps
        = (startStep h :: Q1) ++ Q2 := by
  constructor
  · rw [mkResult_sequence, processQueue_sequence, processQueue_sequence]
    rfl
  · rw [mkResult_steps, processQueue_steps, processQueue_steps]
    rfl

theorem calculateSCAN_left_jump_lists (h : Int) (reqs : List DiskRequest) (ds : Int)
    (hr : scanRightQ h reqs ≠ []) :
    (calculateSCAN h reqs ds .left).sequence
        = (h :: (scanLeftQ h reqs).map (fun r => r.cylinder))
            ++ 0 :: (scanRightQ h reqs).map (fun r => r.cylinder) ∧
      (calculateSCAN h reqs ds .left).steps
        = (startStep h :: scanLeftQ h reqs) ++ scanRightQ h reqs := by
  rw [calculateSCAN_left_jump h reqs ds hr]
  constructor
  · rw [mkResult_sequence, processQueue_sequence]
    simp [scanBoundL, processQueue_sequence, initState]
  · rw [mkResult_steps, processQueue_steps]
    simp [scanBoundL, processQueue_steps, initState]

theorem calculateSCAN_right_jump_lists (h : Int) (reqs : List DiskRequest) (ds : Int)
    (hl : scanLeftQ h reqs ≠ []) :
    (calculateSCAN h reqs ds .right).sequence
        = (h :: (scanRightQ h reqs).map (fun r => r.cylinder))
            ++ (ds - 1) :: (scanLeftQ h reqs).map (fun r => r.cylinder) ∧
      (calculateSCAN h reqs ds .right).steps
        = (startStep h :: scanRightQ h reqs) ++ scanLeftQ h reqs := by
  rw [calculateSCAN_right_jump h reqs ds hl]
  constructor
  · rw [mkResult_sequence, processQueue_sequence]
    simp [scanBoundR, processQueue_sequence, initState]
  · rw [mkResult_steps, processQueue_steps]
    simp [scanBoundR, processQueue_steps, initState]

theorem calculateCSCAN_right_jump_lists (h : Int) (reqs : List DiskRequest) (ds : Int)
    (hl : cscanSecondQ h reqs .right ≠ []) :
    (calculateCSCAN h reqs ds .right).sequence
        = (h :: (cscanFirstQ h reqs .right).map (fun r => r.cylinder))
            ++ (ds - 1) :: 0 :: (cscanSecondQ h reqs .right).map (fun r => r.cylinder) ∧
      (calculateCSCAN h reqs ds .right).steps
        = (startStep h :: cscanFirstQ h reqs .right) ++ cscanSecondQ h reqs .right := by
  rw [calculateCSCAN_right_jump h reqs ds hl]
  constructor
  · rw [mkResult_sequence, processQueue_sequence]
    simp [cscanJumpR, processQueue_sequence, initState]
  · rw [mkResult_steps, processQueue_steps]
    simp [cscanJumpR, processQueue_steps, initState]

theorem calculateCSCAN_left_jump_lists (h : Int) (reqs : List DiskRequest) (ds : Int)
    (hr : cscanSecondQ h reqs .left ≠ []) :
    (calculateCSCAN h reqs ds .left).sequence
        = (h :: (cscanFirstQ h reqs .left).map (fun r => r.cylinder))
            ++ 0 :: (ds - 1) :: (cscanSecondQ h reqs .left).map (fun r => r.cylinder) ∧
      (calculateCSCAN h reqs ds .left).steps
        = (startStep h :: cscanFirstQ h reqs .left) ++ cscanSecondQ h reqs .left := by
  rw [calculateCSCAN_left_jump h reqs ds hr]
  constructor
  · rw [mkResult_sequence, processQueue_sequence]
    simp [cscanJumpL, processQueue_sequence, initState]
  · rw [mkResult_steps, processQueue_steps]
    simp [cscanJumpL, processQueue_steps, initState]

theorem calculateCLOOK_jump_lists (h : Int) (reqs : List DiskRequest) (dir : Direction)
    (l0 : DiskRequest) (lt : List DiskRequest) (h2 : clookSecondQ h reqs dir = l0 :: lt) :
    (calculateCLOOK h reqs dir).sequence
        = (h :: (clookFirstQ h reqs dir).map (fun r => r.cylinder))
            ++ l0.cylinder :: l0.cylinder :: lt.map (fun r => r.cylinder) ∧
      (calculateCLOOK h reqs dir).steps
        = (startStep h :: clookFirstQ h reqs dir) ++ (l0 :: lt) := by
  rw [calculateCLOOK_jump h reqs dir l0 lt h2]
  constructor
  · rw [mkResult_sequence, processQueue_sequence]
    simp [clookJump, processQueue_sequence, initState]
  · rw [mkResult_steps, processQueue_steps]
    simp [clookJump, processQueue_steps, initState]

/-- Number of synthetic (non-servicing) sequence entries SCAN inserts:
one boundary entry exactly when the partition opposite the sweep
direction is non-empty. -/
def scanExtras (h : Int) (reqs : List DiskRequest) (dir : Direction) : Nat :=
  match dir with
  | .left => if reqs.filter (fun r => h ≤ r.cylinder) = [] then 0 else 1
  | .right => if reqs.filter (fun r => r.cylinder < h) = [] then 0 else 1

/-- Number of synthetic sequence entries C-SCAN inserts: the boundary
entry plus the jump landing, exactly when the opposite side (per its
own filters) is non-empty. -/
def cscanExtras (h : Int) (reqs : List DiskRequest) (dir : Direction) : Nat :=
  match dir with
  | .right => if reqs.filter (fun r => r.cylinder < h) = [] then 0 else 2
  | .left => if reqs.filter (fun r => h < r.cylinder) = [] then 0 else 2

/-- Number of synthetic sequence entries C-LOOK inserts: the single
jump landing, exactly when the opposite side is non-empty. -/
def clookExtras (h : Int) (reqs : List DiskRequest) (dir : Direction) : Nat :=
  match dir with
  | .right => if reqs.filter (fun r => r.cylinder < h) = [] then 0 else 1
  | .left => if reqs.filter (fun r => h < r.cylinder) = [] then 0 else 1

theorem cscanSecondQ_right_eq_nil_iff {h : Int} {reqs : List DiskRequest} :
    cscanSecondQ h reqs .right = [] ↔ reqs.filter (fun r => r.cylinder < h) = [] :=
  filter_sortAsc_eq_nil_iff

theorem cscanSecondQ_left_eq_nil_iff {h : Int} {reqs : List DiskRequest} :
    cscanSecondQ h reqs .left = [] ↔ reqs.filter (fun r => h < r.cylinder) = [] := by
  rw [cscanSecondQ, List.reverse_eq_nil_iff]
  exact filter_sortAsc_eq_nil_iff

theorem clookSecondQ_right_eq_nil_iff {h : Int} {reqs : List DiskRequest} :
    clookSecondQ h reqs .right = [] ↔ reqs.filter (fun r => r.cylinder < h) = [] :=
  filter_sortAsc_eq_nil_iff

theorem clookSecondQ_left_eq_nil_iff {h : Int} {reqs : List DiskRequest} :
    clookSecondQ h reqs .left = [] ↔ reqs.filter (fun r => h < r.cylinder) = [] := by
  rw [clookSecondQ, List.reverse_eq_nil_iff]
  exact filter_sortAsc_eq_nil_iff

theorem calculateFCFS_head (h : Int) (reqs : List DiskRequest) :
    (calculateFCFS h reqs).sequence.head? = some h := by
  have e := (mkResult_processQueue_init_lists h reqs reqs.length).1
  rw [calculateFCFS, e]
  rfl

theorem calculateFCFS_align (h : Int) (reqs : List DiskRequest) :
    (calculateFCFS h reqs).sequence.length = (calculateFCFS h reqs).steps.length :=
  mkResult_align (goodWalk_processQueue (goodWalk_init h) reqs) reqs.length

theorem calculateSSTF_head (h : Int) (reqs : List DiskRequest) :
    (calculateSSTF h reqs).sequence.head? = some h := by
  rw [calculateSSTF, mkResult_sequence,
    sstfLoop_head? reqs.length (initState h) reqs (by simp [initState])]
  rfl

theorem calculateSSTF_align (h : Int) (reqs : List DiskRequest) :
    (calculateSSTF h reqs).sequence.length = (calculateSSTF h reqs).steps.length :=
  mkResult_align (goodWalk_sstfLoop reqs.length (initState h) reqs (goodWalk_init h)) reqs.length

theorem calculateLOOK_head (h : Int) (reqs : List DiskRequest) (dir : Direction) :
    (calculateLOOK h reqs dir).sequence.head? = some h := by
  cases dir with
  | left =>
    rw [calculateLOOK_left, (mkResult_processQueue2_lists h _ _ reqs.length).1]
    rfl
  | right =>
    rw [calculateLOOK_right, (mkResult_processQueue2_lists h _ _ reqs.length).1]
    rfl

theorem calculateLOOK_align (h : Int) (reqs : List DiskRequest) (dir : Direction) :
    (calculateLOOK h reqs dir).sequence.length = (calculateLOOK h reqs dir).steps.length := by
  cases dir with
  | left =>
    exact mkResult_align
      (goodWalk_processQueue (goodWalk_processQueue (goodWalk_init h) _) _) reqs.length
  | right =>
    exact mkResult_align
      (goodWalk_processQueue (goodWalk_processQueue (goodWalk_init h) _) _) reqs.length

theorem calculateSCAN_head (h : Int) (reqs : List DiskRequest) (ds : Int) (dir : Direction) :
    (calculateSCAN h reqs ds dir).sequence.head? = some h := by
  cases dir with
  | left =>
    by_cases hr : scanRightQ h reqs = []
    · rw [calculateSCAN_left_nojump h reqs ds hr,
        (mkResult_processQueue_init_lists h _ reqs.length).1]
      rfl
    · rw [(calculateSCAN_left_jump_lists h reqs ds hr).1]
      rfl
  | right =>
    by_cases hl : scanLeftQ h reqs = []
    · rw [calculateSCAN_right_nojump h reqs ds hl,
        (mkResult_processQueue_init_lists h _ reqs.length).1]
      rfl
    · rw [(calculateSCAN_right_jump_lists h reqs ds hl).1]
      rfl

theorem calculateSCAN_align (h : Int) (reqs : List DiskRequest) (ds : Int) (dir : Direction) :
    (calculateSCAN h reqs ds dir).sequence.length
      = (calculateSCAN h reqs ds dir).steps.length + scanExtras h reqs dir := by
  cases dir with
  | left =>
    by_cases hr : scanRightQ h reqs = []
    · have hf := scanRightQ_eq_nil_iff.mp hr
      rw [calculateSCAN_left_nojump h reqs ds hr]
      have := mkResult_align (goodWalk_processQueue (goodWalk_init h) (scanLeftQ h reqs))
        reqs.length
      simp [scanExtras, hf, this]
    · have hf : ¬ reqs.filter (fun r => h ≤ r.cylinder) = [] :=
        fun c => hr (scanRightQ_eq_nil_iff.mpr c)
      obtain ⟨hseq, hsteps⟩ := calculateSCAN_left_jump_lists h reqs ds hr
      rw [hseq, hsteps]
      simp [scanExtras, hf]
      omega
  | right =>
    by_cases hl : scanLeftQ h reqs = []
    · have hf := scanLeftQ_eq_nil_iff.mp hl
      rw [calculateSCAN_right_nojump h reqs ds hl]
      have := mkResult_align (goodWalk_processQueue (goodWalk_init h) (scanRightQ h reqs))
        reqs.length
      simp [scanExtras, hf, this]
    · have hf : ¬ reqs.filter (fun r => r.cylinder < h) = [] :=
        fun c => hl (scanLeftQ_eq_nil_iff.mpr c)
      obtain ⟨hseq, hsteps⟩ := calculateSCAN_right_jump_lists h reqs ds hl
      rw [hseq, hsteps]
      simp [scanExtras, hf]
      omega

theorem calculateCSCAN_head (h : Int) (reqs : List DiskRequest) (ds : Int) (dir : Direction) :
    (calculateCSCAN h reqs ds dir).sequence.head? = some h := by
  cases dir with
  | right =>
    by_cases hl : cscanSecondQ h reqs .right = []
    · rw [calculateCSCAN_right_nojump h reqs ds hl,
        (mkResult_processQueue_init_lists h _ reqs.length).1]
      rfl
    · rw [(calculateCSCAN_right_jump_lists h reqs ds hl).1]
      rfl
  | left =>
    by_cases hr : cscanSecondQ h reqs .left = []
    · rw [calculateCSCAN_left_nojump h reqs ds hr,
        (mkResult_processQueue_init_lists h _ reqs.length).1]
      rfl
    · rw [(calculateCSCAN_left_jump_lists h reqs ds hr).1]
      rfl

theorem calculateCSCAN_align (h : Int) (reqs : List DiskRequest) (ds : Int) (dir : Direction) :
    (calculateCSCAN h reqs ds dir).sequence.length
      = (calculateCSCAN h reqs ds dir).steps.length + cscanExtras h reqs dir := by
  cases dir with
  | right =>
    by_cases hl : cscanSecondQ h reqs .right = []
    · have hf := cscanSecondQ_right_eq_nil_iff.mp hl
      rw [calculateCSCAN_right_nojump h reqs ds hl]
      have := mkResult_align (goodWalk_processQueue (goodWalk_init h) (cscanFirstQ h reqs .right))
        reqs.length
      simp [cscanExtras, hf, this]
    · have hf : ¬ reqs.filter (fun r => r.cylinder < h) = [] :=
        fun c => hl (cscanSecondQ_right_eq_nil_iff.mpr c)
      obtain ⟨hseq, hsteps⟩ := calculateCSCAN_right_jump_lists h reqs ds hl
      rw [hseq, hsteps]
      simp [cscanExtras, hf]
      omega
  | left =>
    by_cases hr : cscanSecondQ h reqs .left = []
    · have hf := cscanSecondQ_left_eq_nil_iff.mp hr
      rw [calculateCSCAN_left_nojump h reqs ds hr]
      have := mkResult_align (goodWalk_processQueue (goodWalk_init h) (cscanFirstQ h reqs .left))
        reqs.length
      simp [cscanExtras, hf, this]
    · have hf : ¬ reqs.filter (fun r => h < r.cylinder) = [] :=
        fun c => hr (cscanSecondQ_left_eq_nil_iff.mpr c)
      obtain ⟨hseq, hsteps⟩ := calculateCSCAN_left_jump_lists h reqs ds hr
      rw [hseq, hsteps]
      simp [cscanExtras, hf]
      omega

theorem calculateCLOOK_head (h : Int) (reqs : List DiskRequest) (dir : Direction) :
    (calculateCLOOK h reqs dir).sequence.head? = some h := by
  by_cases h2 : clookSecondQ h reqs dir = []
  · rw [calculateCLOOK_nojump h reqs dir h2,
      (mkResult_processQueue_init_lists h _ reqs.length).1]
    rfl
  · obtain ⟨l0, lt, hl⟩ := List.exists_cons_of_ne_nil h2
    rw [(calculateCLOOK_jump_lists h reqs dir l0 lt hl).1]
    rfl

theorem calculateCLOOK_align (h : Int) (reqs : List DiskRequest) (dir : Direction) :
    (calculateCLOOK h reqs dir).sequence.length
      = (calculateCLOOK h reqs dir).steps.length + clookExtras h reqs dir := by
  by_cases h2 : clookSecondQ h reqs dir = []
  · have hf : clookExtras h reqs dir = 0 := by
      cases dir with
      | right => simp [clookExtras, clookSecondQ_right_eq_nil_iff.mp h2]
      | left => simp [clookExtras, clookSecondQ_left_eq_nil_iff.mp h2]
    rw [calculateCLOOK_nojump h reqs dir h2, hf]
    have := mkResult_align (goodWalk_processQueue (goodWalk_init h) (clookFirstQ h reqs dir))
      reqs.length
    simp [this]
  · have hf : clookExtras h reqs dir = 1 := by
      cases dir with
      | right =>
        have : ¬ reqs.filter (fun r => r.cylinder < h) = [] :=
          fun c => h2 (clookSecondQ_right_eq_nil_iff.mpr c)
        simp [clookExtras, this]
      | left =>
        have : ¬ reqs.filter (fun r => h < r.cylinder) = [] :=
          fun c => h2 (clookSecondQ_left_eq_nil_iff.mpr c)
        simp [clookExtras, this]
    obtain ⟨l0, lt, hl⟩ := List.exists_cons_of_ne_nil h2
    obtain ⟨hseq, hsteps⟩ := calculateCLOOK_jump_lists h reqs dir l0 lt hl
    rw [hseq, hsteps, hf]
    simp
    omega

/-- C1 counterexample: for SCAN going right from head 50 with the
single request at cylinder 14, the boundary entry 199 is pushed into
sequence with no matching step, so the sequence is strictly longer than
steps. -/
theorem scan_alignment_claim_false :
    ¬ ((calculateSCAN 50 [⟨"a", 14, 0⟩] 200 .right).sequence.length
      = (calculateSCAN 50 [⟨"a", 14, 0⟩] 200 .right).steps.length) := by
  decide

/-- C1 (amended): for every policy and configuration the sequence
starts with the initial head; sequence and steps have equal length for
FCFS, SSTF and LOOK, while SCAN, C-SCAN and C-LOOK have exactly
scanExtras, cscanExtras and clookExtras additional synthetic sequence
entries (1, 2 and 1 respectively when the opposite partition is
non-empty, 0 otherwise). -/
theorem all_policies_head_and_alignment (h ds : Int) (reqs : List DiskRequest)
    (dir : Direction) :
    (calculateFCFS h reqs).sequence.head? = some h ∧
      (calculateSSTF h reqs).sequence.head? = some h ∧
      (calculateSCAN h reqs ds dir).sequence.head? = some h ∧
      (calculateCSCAN h reqs ds dir).sequence.head? = some h ∧
      (calculateLOOK h reqs dir).sequence.head? = some h ∧
      (calculateCLOOK h reqs dir).sequence.head? = some h ∧
      (calculateFCFS h reqs).sequence.length = (calculateFCFS h reqs).steps.length ∧
      (calculateSSTF h reqs).sequence.length = (calculateSSTF h reqs).steps.length ∧
      (calculateLOOK h reqs dir).sequence.length = (calculateLOOK h reqs dir).steps.length ∧
      (calculateSCAN h reqs ds dir).sequence.length
        = (calculateSCAN h reqs ds dir).steps.length + scanExtras h reqs dir ∧
      (calculateCSCAN h reqs ds dir).sequence.length
        = (calculateCSCAN h reqs ds dir).steps.length + cscanExtras h reqs dir ∧
      (calculateCLOOK h reqs dir).sequence.length
        = (calculateCLOOK h reqs dir).steps.length + clookExtras h reqs dir :=
  ⟨calculateFCFS_head h reqs, calculateSSTF_head h reqs, calculateSCAN_head h reqs ds dir,
    calculateCSCAN_head h reqs ds dir, calculateLOOK_head h reqs dir,
    calculateCLOOK_head h reqs dir, calculateFCFS_align h reqs, calculateSSTF_align h reqs,
    calculateLOOK_align h reqs dir, calculateSCAN_align h reqs ds dir,
    calculateCSCAN_align h reqs ds dir, calculateCLOOK_align h reqs dir⟩

/-- A valid RunConfiguration in the sense of the data model: head in
range and every request cylinder in [0, diskSize). -/
def ValidConfig (h ds : Int) (reqs : List DiskRequest) : Prop :=
  0 ≤ h ∧ h < ds ∧ ∀ r ∈ reqs, 0 ≤ r.cylinder ∧ r.cylinder < ds

theorem scanLeftQ_subset {h : Int} {reqs : List DiskRequest} {r : DiskRequest}
    (hr : r ∈ scanLeftQ h reqs) : r ∈ reqs := by
  rw [scanLeftQ, sortDesc] at hr
  exact (List.mem_filter.mp (mem_sortStable.mp hr)).1

theorem scanRightQ_subset {h : Int} {reqs : List DiskRequest} {r : DiskRequest}
    (hr : r ∈ scanRightQ h reqs) : r ∈ reqs := by
  rw [scanRightQ, sortAsc] at hr
  exact (List.mem_filter.mp (mem_sortStable.mp hr)).1

theorem cscanFirstQ_subset {h : Int} {reqs : List DiskRequest} {dir : Direction}
    {r : DiskRequest} (hr : r ∈ cscanFirstQ h reqs dir) : r ∈ reqs := by
  cases dir with
  | right =>
    rw [cscanFirstQ] at hr
    exact mem_sortStable.mp (List.mem_filter.mp hr).1
  | left =>
    rw [cscanFirstQ, List.mem_reverse] at hr
    exact mem_sortStable.mp (List.mem_filter.mp hr).1

theorem cscanSecondQ_subset {h : Int} {reqs : List DiskRequest} {dir : Direction}
    {r : DiskRequest} (hr : r ∈ cscanSecondQ h reqs dir) : r ∈ reqs := by
  cases dir with
  | right =>
    rw [cscanSecondQ] at hr
    exact mem_sortStable.mp (List.mem_filter.mp hr).1
  | left =>
    rw [cscanSecondQ, List.mem_reverse] at hr
    exact mem_sortStable.mp (List.mem_filter.mp hr).1

theorem clookFirstQ_subset {h : Int} {reqs : List DiskRequest} {dir : Direction}
    {r : DiskRequest} (hr : r ∈ clookFirstQ h reqs dir) : r ∈ reqs := by
  cases dir with
  | right =>
    rw [clookFirstQ] at hr
    exact mem_sortStable.mp (List.mem_filter.mp hr).1
  | left =>
    rw [clookFirstQ, List.mem_reverse] at hr
    exact mem_sortStable.mp (List.mem_filter.mp hr).1

theorem clookSecondQ_subset {h : Int} {reqs : List DiskRequest} {dir : Direction}
    {r : DiskRequest} (hr : r ∈ clookSecondQ h reqs dir) : r ∈ reqs := by
  cases dir with
  | right =>
    rw [clookSecondQ] at hr
    exact mem_sortStable.mp (List.mem_filter.mp hr).1
  | left =>
    rw [clookSecondQ, List.mem_reverse] at hr
    exact mem_sortStable.mp (List.mem_filter.mp hr).1

theorem processQueue_init_currentCyl_le {h B : Int} {Q reqs : List DiskRequest}
    (hsub : ∀ r ∈ Q, r ∈ reqs) (hh : h ≤ B) (hv : ∀ r ∈ reqs, r.cylinder ≤ B) :
    (processQueue (initState h) Q).currentCyl ≤ B := by
  rw [processQueue_currentCyl]
  apply getLastD_le hh
  intro x hx
  obtain ⟨r, hrQ, rfl⟩ := List.mem_map.mp hx
  exact hv r (hsub r hrQ)

theorem processQueue_init_currentCyl_nonneg {h : Int} {Q reqs : List DiskRequest}
    (hsub : ∀ r ∈ Q, r ∈ reqs) (hh : 0 ≤ h) (hv : ∀ r ∈ reqs, 0 ≤ r.cylinder) :
    0 ≤ (processQueue (initState h) Q).currentCyl := by
  rw [processQueue_currentCyl]
  apply getLastD_nonneg hh
  intro x hx
  obtain ⟨r, hrQ, rfl⟩ := List.mem_map.mp hx
  exact hv r (hsub r hrQ)

theorem calculateFCFS_seek_diffSum (h : Int) (reqs : List DiskRequest) :
    (calculateFCFS h reqs).totalSeekCount = diffSum (calculateFCFS h reqs).sequence :=
  mkResult_seek_diffSum
    (goodWalk_seekWalk (goodWalk_processQueue (goodWalk_init h) reqs)) reqs.length

theorem calculateSSTF_seek_diffSum (h : Int) (reqs : List DiskRequest) :
    (calculateSSTF h reqs).totalSeekCount = diffSum (calculateSSTF h reqs).sequence :=
  mkResult_seek_diffSum
    (goodWalk_seekWalk (goodWalk_sstfLoop reqs.length (initState h) reqs (goodWalk_init h)))
    reqs.length

theorem calculateLOOK_seek_diffSum (h : Int) (reqs : List DiskRequest) (dir : Direction) :
    (calculateLOOK h reqs dir).totalSeekCount = diffSum (calculateLOOK h reqs dir).sequence := by
  cases dir with
  | left =>
    exact mkResult_seek_diffSum (goodWalk_seekWalk
      (goodWalk_processQueue (goodWalk_processQueue (goodWalk_init h) _) _)) reqs.length
  | right =>
    exact mkResult_seek_diffSum (goodWalk_seekWalk
      (goodWalk_processQueue (goodWalk_processQueue (goodWalk_init h) _) _)) reqs.length

theorem calculateSCAN_seek_diffSum (h ds : Int) (reqs : List DiskRequest) (dir : Direction)
    (hv : ValidConfig h ds reqs) :
    (calculateSCAN h reqs ds dir).totalSeekCount
      = diffSum (calculateSCAN h reqs ds dir).sequence := by
  obtain ⟨h0, hlt, hr⟩ := hv
  cases dir with
  | left =>
    by_cases he : scanRightQ h reqs = []
    · rw [calculateSCAN_left_nojump h reqs ds he]
      exact mkResult_seek_diffSum
        (goodWalk_seekWalk (goodWalk_processQueue (goodWalk_init h) _)) reqs.length
    · rw [calculateSCAN_left_jump h reqs ds he]
      have hs1 : SeekWalk (processQueue (initState h) (scanLeftQ h reqs)) :=
        seekWalk_processQueue (goodWalk_seekWalk (goodWalk_init h)) _
      have hcur : 0 ≤ (processQueue (initState h) (scanLeftQ h reqs)).currentCyl :=
        processQueue_init_currentCyl_nonneg (fun r hm => scanLeftQ_subset hm) h0
          (fun r hm => (hr r hm).1)
      exact mkResult_seek_diffSum
        (seekWalk_processQueue (seekWalk_scanBoundL hs1 hcur) _) reqs.length
  | right =>
    by_cases he : scanLeftQ h reqs = []
    · rw [calculateSCAN_right_nojump h reqs ds he]
      exact mkResult_seek_diffSum
        (goodWalk_seekWalk (goodWalk_processQueue (goodWalk_init h) _)) reqs.length
    · rw [calculateSCAN_right_jump h reqs ds he]
      have hs1 : SeekWalk (processQueue (initState h) (scanRightQ h reqs)) :=
        seekWalk_processQueue (goodWalk_seekWalk (goodWalk_init h)) _
      have hcur : (processQueue (initState h) (scanRightQ h reqs)).currentCyl ≤ ds - 1 :=
        processQueue_init_currentCyl_le (fun r hm => scanRightQ_subset hm)
          (by omega) (fun r hm => by have := (hr r hm).2; omega)
      exact mkResult_seek_diffSum
        (seekWalk_processQueue (seekWalk_scanBoundR hs1 hcur) _) reqs.length

theorem calculateCSCAN_seek_diffSum (h ds : Int) (reqs : List DiskRequest) (dir : Direction)
    (hv : ValidConfig h ds reqs) :
    (calculateCSCAN h reqs ds dir).totalSeekCount
      = diffSum (calculateCSCAN h reqs ds dir).sequence := by
  obtain ⟨h0, hlt, hr⟩ := hv
  have hds : (1 : Int) ≤ ds := by omega
  cases dir with
  | right =>
    by_cases he : cscanSecondQ h reqs .right = []
    · rw [calculateCSCAN_right_nojump h reqs ds he]
      exact mkResult_seek_diffSum
        (goodWalk_seekWalk (goodWalk_processQueue (goodWalk_init h) _)) reqs.length
    · rw [calculateCSCAN_right_jump h reqs ds he]
      have hs1 : SeekWalk (processQueue (initState h) (cscanFirstQ h reqs .right)) :=
        seekWalk_processQueue (goodWalk_seekWalk (goodWalk_init h)) _
      have hcur : (processQueue (initState h) (cscanFirstQ h reqs .right)).currentCyl ≤ ds - 1 :=
        processQueue_init_currentCyl_le (fun r hm => cscanFirstQ_subset hm)
          (by omega) (fun r hm => by have := (hr r hm).2; omega)
      exact mkResult_seek_diffSum
        (seekWalk_processQueue (seekWalk_cscanJumpR hs1 hcur hds) _) reqs.length
  | left =>
    by_cases he : cscanSecondQ h reqs .left = []
    · rw [calculateCSCAN_left_nojump h reqs ds he]
      exact mkResult_seek_diffSum
        (goodWalk_seekWalk (goodWalk_processQueue (goodWalk_init h) _)) reqs.length
    · rw [calculateCSCAN_left_jump h reqs ds he]
      have hs1 : SeekWalk (processQueue (initState h) (cscanFirstQ h reqs .left)) :=
        seekWalk_processQueue (goodWalk_seekWalk (goodWalk_init h)) _
      have hcur : 0 ≤ (processQueue (initState h) (cscanFirstQ h reqs .left)).currentCyl :=
        processQueue_init_currentCyl_nonneg (fun r hm => cscanFirstQ_subset hm) h0
          (fun r hm => (hr r hm).1)
      exact mkResult_seek_diffSum
        (seekWalk_processQueue (seekWalk_cscanJumpL hs1 hcur hds) _) reqs.length

theorem calculateCLOOK_seek_diffSum (h : Int) (reqs : List DiskRequest) (dir : Direction) :
    (calculateCLOOK h reqs dir).totalSeekCount
      = diffSum (calculateCLOOK h reqs dir).sequence := by
  by_cases h2 : clookSecondQ h reqs dir = []
  · rw [calculateCLOOK_nojump h reqs dir h2]
    exact mkResult_seek_diffSum
      (goodWalk_seekWalk (goodWalk_processQueue (goodWalk_init h) _)) reqs.length
  · obtain ⟨l0, lt, hl⟩ := List.exists_cons_of_ne_nil h2
    rw [calculateCLOOK_jump h reqs dir l0 lt hl, mkResult_totalSeekCount, mkResult_sequence,
      processQueue_seekCount, processQueue_sequence]
    obtain ⟨hne, hcur, hseek⟩ :
        SeekWalk (processQueue (initState h) (clookFirstQ h reqs dir)) :=
      seekWalk_processQueue (goodWalk_seekWalk (goodWalk_init h)) _
    set s1 := processQueue (initState h) (clookFirstQ h reqs dir) with hs1
    have e1 : (clookJump l0.cylinder s1).seekCount = s1.seekCount := rfl
    have e2 : (clookJump l0.cylinder s1).currentCyl = s1.currentCyl := rfl
    have e3 : (clookJump l0.cylinder s1).sequence = s1.sequence ++ [l0.cylinder] := rfl
    rw [e1, e2, e3, List.append_assoc, diffSum_append _ _ hne]
    simp only [List.map_cons, List.singleton_append, pathSum, sub_self, abs_zero, zero_add]
    rw [hseek, hcur]

/-- C2: for every policy on a valid configuration, totalSeekCount is
the sum of absolute successive differences of sequence, synthetic
boundary and jump entries included. -/
theorem totalSeekCount_eq_diffSum (h ds : Int) (reqs : List DiskRequest) (dir : Direction)
    (hv : ValidConfig h ds reqs) :
    (calculateFCFS h reqs).totalSeekCount = diffSum (calculateFCFS h reqs).sequence ∧
      (calculateSSTF h reqs).totalSeekCount = diffSum (calculateSSTF h reqs).sequence ∧
      (calculateSCAN h reqs ds dir).totalSeekCount
        = diffSum (calculateSCAN h reqs ds dir).sequence ∧
      (calculateCSCAN h reqs ds dir).totalSeekCount
        = diffSum (calculateCSCAN h reqs ds dir).sequence ∧
      (calculateLOOK h reqs dir).totalSeekCount = diffSum (calculateLOOK h reqs dir).sequence ∧
      (calculateCLOOK h reqs dir).totalSeekCount = diffSum (calculateCLOOK h reqs dir).sequence :=
  ⟨calculateFCFS_seek_diffSum h reqs, calculateSSTF_seek_diffSum h reqs,
    calculateSCAN_seek_diffSum h ds reqs dir hv, calculateCSCAN_seek_diffSum h ds reqs dir hv,
    calculateLOOK_seek_diffSum h reqs dir, calculateCLOOK_seek_diffSum h reqs dir⟩

/-- The default workload of DiskScheduler.tsx: cylinders
[98, 183, 37, 122, 14, 124, 65, 67] with sectors (idx * 45) mod 360. -/
def defaultRequests : List DiskRequest :=
  [⟨"init-0", 98, 0⟩, ⟨"init-1", 183, 45⟩, ⟨"init-2", 37, 90⟩, ⟨"init-3", 122, 135⟩,
   ⟨"init-4", 14, 180⟩, ⟨"init-5", 124, 225⟩, ⟨"init-6", 65, 270⟩, ⟨"init-7", 67, 315⟩]

theorem mkResult_initState_fields (h : Int) :
    (mkResult (initState h) 0).sequence = [h] ∧
      (mkResult (initState h) 0).steps = [startStep h] ∧
      (mkResult (initState h) 0).totalSeekCount = 0 ∧
      (mkResult (initState h) 0).averageSeekTime = 0 ∧
      (mkResult (initState h) 0).totalRotationTime = 0 ∧
      (mkResult (initState h) 0).totalOperationalTime = 0 := by
  refine ⟨rfl, rfl, rfl, ?_, rfl, ?_⟩ <;> norm_num [mkResult, initState]

/-- The zero-cost degenerate result every policy must return on an
empty request list. -/
def DegenerateOn (res : DiskResult) (h : Int) : Prop :=
  res.sequence = [h] ∧ res.steps = [startStep h] ∧ res.totalSeekCount = 0 ∧
    res.averageSeekTime = 0 ∧ res.totalRotationTime = 0 ∧ res.totalOperationalTime = 0

/-- C5: every one of the six policies maps the empty request list to
sequence [initialHead], the single synthetic start step, and all-zero
totals, with averageSeekTime dividing by max(1,0) = 1. -/
theorem empty_requests_all_policies_degenerate (h ds : Int) (dir : Direction) :
    DegenerateOn (calculateFCFS h []) h ∧
      DegenerateOn (calculateSSTF h []) h ∧
      DegenerateOn (calculateSCAN h [] ds dir) h ∧
      DegenerateOn (calculateCSCAN h [] ds dir) h ∧
      DegenerateOn (calculateLOOK h [] dir) h ∧
      DegenerateOn (calculateCLOOK h [] dir) h := by
  have base := mkResult_initState_fields h
  have e1 : calculateFCFS h [] = mkResult (initState h) 0 := rfl
  have e2 : calculateSSTF h [] = mkResult (initState h) 0 := rfl
  have e3 : calculateSCAN h [] ds dir = mkResult (initState h) 0 := by cases dir <;> rfl
  have e4 : calculateCSCAN h [] ds dir = mkResult (initState h) 0 := by cases dir <;> rfl
  have e5 : calculateLOOK h [] dir = mkResult (initState h) 0 := by cases dir <;> rfl
  have e6 : calculateCLOOK h [] dir = mkResult (initState h) 0 := by cases dir <;> rfl
  exact ⟨e1 ▸ base, e2 ▸ base, e3 ▸ base, e4 ▸ base, e5 ▸ base, e6 ▸ base⟩

/-- C3 counterexample: on initialHead 50 with the default cylinders
[98,183,37,122,14,124,65,67], SSTF does not first serve 65 with total
seek 640 — cylinder 37 is nearer (distance 13 versus 15). -/
theorem sstf_textbook_claim_false :
    ¬ ((calculateSSTF 50 defaultRequests).sequence.getD 1 0 = 65 ∧
      (calculateSSTF 50 defaultRequests).totalSeekCount = 640) := by
  decide

/-- C3 (amended): for SSTF with initialHead 50 and the default request
cylinders, the first serviced cylinder is 37 (distance 13, the nearest
pending request) and the total seek count is 205; the full service
order is 37, 14, 65, 67, 98, 122, 124, 183. -/
theorem sstf_default_first_37_total_205 :
    (calculateSSTF 50 defaultRequests).sequence = [50, 37, 14, 65, 67, 98, 122, 124, 183] ∧
      (calculateSSTF 50 defaultRequests).sequence.getD 1 0 = 37 ∧
      (calculateSSTF 50 defaultRequests).totalSeekCount = 205 := by
  decide

/-- C4: SCAN going right on diskSize 200, initialHead 50 and the
default request cylinders inserts the boundary entry 199 after the last
right-partition request 183 and before the first left-partition request
37, records no step for it, and totals 334 seek units. -/
theorem scan_right_boundary_step_334 :
    (calculateSCAN 50 defaultRequests 200 .right).sequence
        = [50, 65, 67, 98, 122, 124, 183, 199, 37, 14] ∧
      (calculateSCAN 50 defaultRequests 200 .right).sequence.getD 7 0 = 199 ∧
      (calculateSCAN 50 defaultRequests 200 .right).steps.map (fun r => r.cylinder)
        = [50, 65, 67, 98, 122, 124, 183, 37, 14] ∧
      (calculateSCAN 50 defaultRequests 200 .right).totalSeekCount = 334 := by
  decide

theorem totalSeekCount_eq_diffSum_witness :
    ValidConfig 50 200 defaultRequests ∧
      (calculateSCAN 50 defaultRequests 200 .right).totalSeekCount
        = diffSum (calculateSCAN 50 defaultRequests 200 .right).sequence ∧
      (calculateCSCAN 50 defaultRequests 200 .right).totalSeekCount
        = diffSum (calculateCSCAN 50 defaultRequests 200 .right).sequence :=
  ⟨by unfold ValidConfig; decide,
    (totalSeekCount_eq_diffSum 50 200 defaultRequests .right
      (by unfold ValidConfig; decide)).2.2.1,
    (totalSeekCount_eq_diffSum 50 200 defaultRequests .right
      (by unfold ValidConfig; decide)).2.2.2.1⟩

theorem clookSecondQ_pairwise_right (h : Int) (reqs : List DiskRequest) :
    (clookSecondQ h reqs .right).Pairwise (fun a b => a.cylinder ≤ b.cylinder) :=
  List.Pairwise.filter _ (sortStable_pairwise (fun r => r.cylinder) reqs)

theorem clookSecondQ_pairwise_left (h : Int) (reqs : List DiskRequest) :
    (clookSecondQ h reqs .left).Pairwise (fun a b => b.cylinder ≤ a.cylinder) := by
  rw [clookSecondQ, List.pairwise_reverse]
  exact List.Pairwise.filter _ (sortStable_pairwise (fun r => r.cylinder) reqs)

theorem calculateCLOOK_sequence_mem (h : Int) (reqs : List DiskRequest) (dir : Direction)
    (c : Int) (hc : c ∈ (calculateCLOOK h reqs dir).sequence) :
    c = h ∨ ∃ r ∈ reqs, r.cylinder = c := by
  by_cases h2 : clookSecondQ h reqs dir = []
  · rw [calculateCLOOK_nojump h reqs dir h2,
      (mkResult_processQueue_init_lists h _ reqs.length).1] at hc
    rcases List.mem_cons.mp hc with rfl | hc
    · exact Or.inl rfl
    · obtain ⟨r, hrQ, rfl⟩ := List.mem_map.mp hc
      exact Or.inr ⟨r, clookFirstQ_subset hrQ, rfl⟩
  · obtain ⟨l0, lt, hl⟩ := List.exists_cons_of_ne_nil h2
    rw [(calculateCLOOK_jump_lists h reqs dir l0 lt hl).1] at hc
    have hl0 : l0 ∈ reqs := clookSecondQ_subset (hl ▸ List.mem_cons_self l0 lt)
    rcases List.mem_append.mp hc with hc | hc
    · rcases List.mem_cons.mp hc with rfl | hc
      · exact Or.inl rfl
      · obtain ⟨r, hrQ, rfl⟩ := List.mem_map.mp hc
        exact Or.inr ⟨r, clookFirstQ_subset hrQ, rfl⟩
    · rcases List.mem_cons.mp hc with rfl | hc
      · exact Or.inr ⟨l0, hl0, rfl⟩
      · rcases List.mem_cons.mp hc with rfl | hc
        · exact Or.inr ⟨l0, hl0, rfl⟩
        · obtain ⟨r, hrQ, rfl⟩ := List.mem_map.mp hc
          have : r ∈ clookSecondQ h reqs dir := hl ▸ List.mem_cons_of_mem l0 hrQ
          exact Or.inr ⟨r, clookSecondQ_subset this, rfl⟩

/-- C6 counterexample: with the valid configuration initialHead 0,
diskSize 200 and the single request at cylinder 5, C-LOOK's sequence
contains the boundary cylinder 0 although no pending request sits
there (the seed entry is the initial head itself). -/
theorem clook_boundary_claim_false :
    ValidConfig 0 200 [⟨"a", 5, 0⟩] ∧
      0 ∈ (calculateCLOOK 0 [⟨"a", 5, 0⟩] .right).sequence ∧
      ∀ r ∈ [(⟨"a", 5, 0⟩ : DiskRequest)], r.cylinder ≠ 0 := by
  unfold ValidConfig
  decide

/-- C6 (amended): C-LOOK's sequence never contains a cylinder that is
neither the initial head nor the cylinder of a pending request (so it
touches 0 or diskSize-1 only when the head starts there or a request
sits there); and whenever the opposite partition is non-empty, exactly
one non-servicing jump entry is recorded, landing on the cylinder of
the first request of the opposite partition in continued sweep order,
which is extremal (nearest in sweep order) among that partition. -/
theorem clook_membership_and_jump (h : Int) (reqs : List DiskRequest) (dir : Direction)
    (b : Int) (hb1 : b ≠ h) (hb2 : ∀ r ∈ reqs, r.cylinder ≠ b) :
    b ∉ (calculateCLOOK h reqs dir).sequence ∧
      ∀ l0 lt, clookSecondQ h reqs dir = l0 :: lt →
        (calculateCLOOK h reqs dir).sequence
            = (h :: (clookFirstQ h reqs dir).map (fun r => r.cylinder))
                ++ l0.cylinder :: l0.cylinder :: lt.map (fun r => r.cylinder) ∧
          (calculateCLOOK h reqs dir).steps
            = (startStep h :: clookFirstQ h reqs dir) ++ (l0 :: lt) ∧
          (calculateCLOOK h reqs dir).sequence.length
            = (calculateCLOOK h reqs dir).steps.length + 1 ∧
          (∀ r ∈ clookSecondQ h reqs dir,
            (dir = .right → l0.cylinder ≤ r.cylinder) ∧
              (dir = .left → r.cylinder ≤ l0.cylinder)) := by
  constructor
  · intro hmem
    rcases calculateCLOOK_sequence_mem h reqs dir b hmem with rfl | ⟨r, hr, hrc⟩
    · exact hb1 rfl
    · exact hb2 r hr hrc
  · intro l0 lt hl
    obtain ⟨hseq, hsteps⟩ := calculateCLOOK_jump_lists h reqs dir l0 lt hl
    refine ⟨hseq, hsteps, ?_, ?_⟩
    · rw [hseq, hsteps]
      simp
      omega
    · intro r hr
      constructor
      · rintro rfl
        have hp := clookSecondQ_pairwise_right h reqs
        rw [hl, List.pairwise_cons] at hp
        rw [hl] at hr
        rcases List.mem_cons.mp hr with rfl | hr
        · exact le_refl _
        · exact hp.1 r hr
      · rintro rfl
        have hp := clookSecondQ_pairwise_left h reqs
        rw [hl, List.pairwise_cons] at hp
        rw [hl] at hr
        rcases List.mem_cons.mp hr with rfl | hr
        · exact le_refl _
        · exact hp.1 r hr

theorem clook_membership_and_jump_witness :
    (199 : Int) ∉ (calculateCLOOK 50 defaultRequests .right).sequence :=
  (clook_membership_and_jump 50 defaultRequests .right 199 (by decide) (by decide)).1

theorem diffSum_dup (A : List Int) (c : Int) (B : List Int) (hA : A ≠ []) :
    diffSum (A ++ c :: c :: B) = diffSum (A ++ c :: B) := by
  rw [diffSum_append _ _ hA, diffSum_append _ _ hA]
  simp [pathSum]

/-- C10: when both C-LOOK partitions are non-empty, the jump-landing
cylinder appears twice in consecutive sequence positions (the pushed
jump entry and the serviced request), the extra entry has no matching
step (sequence is one longer than steps), and removing the duplicate
does not change the successive-difference sum, which still equals
totalSeekCount. -/
theorem clook_jump_duplicate (h : Int) (reqs : List DiskRequest) (dir : Direction)
    (l0 : DiskRequest) (lt : List DiskRequest)
    (h2 : clookSecondQ h reqs dir = l0 :: lt) (_h1 : clookFirstQ h reqs dir ≠ []) :
    (calculateCLOOK h reqs dir).sequence.getD (1 + (clookFirstQ h reqs dir).length) 0
        = l0.cylinder ∧
      (calculateCLOOK h reqs dir).sequence.getD (2 + (clookFirstQ h reqs dir).length) 0
        = l0.cylinder ∧
      (calculateCLOOK h reqs dir).sequence.length
        = (calculateCLOOK h reqs dir).steps.length + 1 ∧
      (calculateCLOOK h reqs dir).totalSeekCount
        = diffSum ((h :: (clookFirstQ h reqs dir).map (fun r => r.cylinder))
            ++ l0.cylinder :: lt.map (fun r => r.cylinder)) := by
  obtain ⟨hseq, hsteps⟩ := calculateCLOOK_jump_lists h reqs dir l0 lt h2
  have hlen : (h :: (clookFirstQ h reqs dir).map (fun r => r.cylinder)).length
      = 1 + (clookFirstQ h reqs dir).length := by
    simp
    omega
  refine ⟨?_, ?_, ?_, ?_⟩
  · rw [hseq, List.getD_append_right _ _ _ _ (by omega), hlen]
    simp
  · rw [hseq, List.getD_append_right _ _ _ _ (by omega), hlen]
    have : 2 + (clookFirstQ h reqs dir).length - (1 + (clookFirstQ h reqs dir).length) = 1 := by
      omega
    rw [this]
    rfl
  · rw [hseq, hsteps]
    simp
    omega
  · rw [calculateCLOOK_seek_diffSum h reqs dir, hseq, diffSum_dup _ _ _ (by simp)]

theorem clook_jump_duplicate_witness :
    clookSecondQ 50 [⟨"a", 98, 0⟩, ⟨"b", 14, 0⟩] .right = [⟨"b", 14, 0⟩] ∧
      clookFirstQ 50 [⟨"a", 98, 0⟩, ⟨"b", 14, 0⟩] .right ≠ [] ∧
      (calculateCLOOK 50 [⟨"a", 98, 0⟩, ⟨"b", 14, 0⟩] .right).sequence.getD
          (1 + (clookFirstQ 50 [⟨"a", 98, 0⟩, ⟨"b", 14, 0⟩] .right).length) 0 = 14 ∧
      (calculateCLOOK 50 [⟨"a", 98, 0⟩, ⟨"b", 14, 0⟩] .right).sequence.getD
          (2 + (clookFirstQ 50 [⟨"a", 98, 0⟩, ⟨"b", 14, 0⟩] .right).length) 0 = 14 :=
  ⟨by decide, by decide,
    (clook_jump_duplicate 50 [⟨"a", 98, 0⟩, ⟨"b", 14, 0⟩] .right ⟨"b", 14, 0⟩ []
      (by decide) (by decide)).1,
    (clook_jump_duplicate 50 [⟨"a", 98, 0⟩, ⟨"b", 14, 0⟩] .right ⟨"b", 14, 0⟩ []
      (by decide) (by decide)).2.1⟩

/-- The DiskScheduler.tsx state the playback/aggregation claims
concern: the Run Configuration plus the Playback Controller fields. -/
structure UIState where
  initialHead : Int
  diskSize : Int
  requests : List DiskRequest
  direction : Direction
  isPlaying : Bool
  currentStep : Nat
deriving Repr, DecidableEq

/-- Head Origin input onChange: setInitialHead(v); setCurrentStep(0);
setIsPlaying(false). -/
def setHeadOrigin (v : Int) (st : UIState) : UIState :=
  { st with initialHead := v, currentStep := 0, isPlaying := false }

/-- Track Count input onChange: only setDiskSize(parseInt(v) || 200);
currentStep and isPlaying are left untouched. -/
def setTrackCount (v : Int) (st : UIState) : UIState :=
  { st with diskSize := if v = 0 then 200 else v }

/-- Mechanical Direction button onClick: setDirection(d);
setCurrentStep(0); setIsPlaying(false). -/
def setDirectionHandler (d : Direction) (st : UIState) : UIState :=
  { st with direction := d, currentStep := 0, isPlaying := false }

/-- handleAddRequest: a parsed cylinder is queued only when it lies in
[0, diskSize), with sector (requests.length * 40) % 360, and playback
is reset; otherwise nothing changes. -/
def handleAddRequest (val : Int) (rid : String) (st : UIState) : UIState :=
  if 0 ≤ val ∧ val < st.diskSize then
    { st with
      requests := st.requests ++ [⟨rid, val, ((st.requests.length : Int) * 40) % 360⟩]
      currentStep := 0
      isPlaying := false }
  else st

/-- Per-request delete button: filter out index i, reset playback. -/
def removeRequest (i : Nat) (st : UIState) : UIState :=
  { st with requests := st.requests.eraseIdx i, currentStep := 0, isPlaying := false }

/-- applyPreset: replace the request list, reset playback. -/
def applyPreset (pReqs : List DiskRequest) (st : UIState) : UIState :=
  { st with requests := pReqs, currentStep := 0, isPlaying := false }

/-- Purge button: clear the request list, reset playback. -/
def purgeRequests (st : UIState) : UIState :=
  { st with requests := [], currentStep := 0, isPlaying := false }

/-- The results memo: the six named policy results in declaration
order FCFS, SSTF, SCAN, C-SCAN, LOOK, C-LOOK. -/
def computeResults (st : UIState) : List (String × DiskResult) :=
  [("FCFS", calculateFCFS st.initialHead st.requests),
   ("SSTF", calculateSSTF st.initialHead st.requests),
   ("SCAN", calculateSCAN st.initialHead st.requests st.diskSize st.direction),
   ("C-SCAN", calculateCSCAN st.initialHead st.requests st.diskSize st.direction),
   ("LOOK", calculateLOOK st.initialHead st.requests st.direction),
   ("C-LOOK", calculateCLOOK st.initialHead st.requests st.direction)]

/-- maxSteps: Math.max over the six sequence lengths. -/
def maxSteps (st : UIState) : Nat :=
  (computeResults st).foldl (fun m p => max m p.2.sequence.length) 0

/-- handlePlayPause: when currentStep has reached maxSteps - 1 the
step is reset to 0 first; then isPlaying is toggled. -/
def handlePlayPause (st : UIState) : UIState :=
  let st1 := if maxSteps st - 1 ≤ st.currentStep then { st with currentStep := 0 } else st
  { st1 with isPlaying := Bool.not st.isPlaying }

/-- The chart entry for a policy at step i:
sequence[Math.min(i, sequence.length - 1)], so a finished policy keeps
showing its last position. -/
def chartValue (res : DiskResult) (i : Nat) : Int :=
  res.sequence.getD (min i (res.sequence.length - 1)) 0

/-- The DiskPlatter headPos binding:
results[...].sequence[currentStep] || initialHead — the JS fallback
fires both when the index is out of range and when the entry is the
falsy cylinder 0. -/
def platterHeadPos (st : UIState) (res : DiskResult) : Int :=
  match res.sequence.get? st.currentStep with
  | some v => if v = 0 then st.initialHead else v
  | none => st.initialHead

/-- One row of metricsData. -/
structure MetricEntry where
  name : String
  seekCount : Int
  operationalTime : ℚ
deriving Repr, DecidableEq

/-- metricsData: the six {name, seekCount, operationalTime} rows sorted
ascending by operationalTime with the stable JS Array.sort. -/
def metricsData (st : UIState) : List MetricEntry :=
  sortStable (fun e => e.operationalTime)
    ((computeResults st).map (fun p => ⟨p.1, p.2.totalSeekCount, p.2.totalOperationalTime⟩))

/-- The shape of the observation memo: the awaiting-configuration
message on an empty request set, otherwise a summary built from the
best (first) and worst (last) ranked entries. -/
inductive Observation where
  | awaitingConfig
  | summary (best worst : MetricEntry)
deriving Repr, DecidableEq

/-- The observation memo of DiskScheduler.tsx. -/
def observation (st : UIState) : Observation :=
  if st.requests = [] then .awaitingConfig
  else .summary ((metricsData st).headD ⟨"", 0, 0⟩) ((metricsData st).getLastD ⟨"", 0, 0⟩)

/-- A playing state mid-run, used to exhibit the Track Count slip. -/
def uiStateEx : UIState :=
  { initialHead := 50, diskSize := 200, requests := [], direction := .right,
    isPlaying := true, currentStep := 3 }

/-- C7 counterexample: changing the Track Count (diskSize) does not
reset the Playback Controller — from a playing state at step 3 it stays
playing at step 3. -/
theorem track_count_reset_claim_false :
    ¬ ((setTrackCount 100 uiStateEx).currentStep = 0 ∧
      (setTrackCount 100 uiStateEx).isPlaying = false) := by
  decide

/-- C7 (amended): every Run Configuration mutation except the Track
Count change — head origin, direction, adding a valid request, removing
a request, applying a preset, purging — forces currentStep to 0 and
stops playback; the Track Count handler leaves both playback fields
untouched. -/
theorem config_mutations_reset_playback (st : UIState) (v w : Int) (d : Direction)
    (val : Int) (rid : String) (i : Nat) (pReqs : List DiskRequest)
    (hval : 0 ≤ val ∧ val < st.diskSize) :
    ((setHeadOrigin v st).currentStep = 0 ∧ (setHeadOrigin v st).isPlaying = false) ∧
      ((setDirectionHandler d st).currentStep = 0 ∧
        (setDirectionHandler d st).isPlaying = false) ∧
      ((handleAddRequest val rid st).currentStep = 0 ∧
        (handleAddRequest val rid st).isPlaying = false) ∧
      ((removeRequest i st).currentStep = 0 ∧ (removeRequest i st).isPlaying = false) ∧
      ((applyPreset pReqs st).currentStep = 0 ∧ (applyPreset pReqs st).isPlaying = false) ∧
      ((purgeRequests st).currentStep = 0 ∧ (purgeRequests st).isPlaying = false) ∧
      ((setTrackCount w st).currentStep = st.currentStep ∧
        (setTrackCount w st).isPlaying = st.isPlaying) := by
  refine ⟨⟨rfl, rfl⟩, ⟨rfl, rfl⟩, ⟨?_, ?_⟩, ⟨rfl, rfl⟩, ⟨rfl, rfl⟩, ⟨rfl, rfl⟩, rfl, rfl⟩
  · rw [handleAddRequest, if_pos hval]
  · rw [handleAddRequest, if_pos hval]

theorem config_mutations_reset_playback_witness :
    (handleAddRequest 10 "req-1" uiStateEx).currentStep = 0 ∧
      (handleAddRequest 10 "req-1" uiStateEx).isPlaying = false :=
  (config_mutations_reset_playback uiStateEx 0 100 .left 10 "req-1" 0 []
    (by decide)).2.2.1

theorem getD_length_pred : ∀ (l : List Int), l ≠ [] → l.getD (l.length - 1) 0 = l.getLastD 0
  | [_], _ => rfl
  | x :: y :: t, _ => by
    have ih := getD_length_pred (y :: t) (by simp)
    show (x :: y :: t).getD (t.length + 1) 0 = (x :: y :: t).getLastD 0
    rw [List.getD_cons_succ]
    calc (y :: t).getD t.length 0 = (y :: t).getLastD 0 := ih
      _ = t.getLastD y := List.getLastD_cons 0 y t
      _ = (x :: y :: t).getLastD 0 :=
        ((List.getLastD_cons 0 x (y :: t)).trans (List.getLastD_cons x y t)).symm

/-- The two-request playback scenario used for the C8 platter
counterexample: FCFS finishes at step 2 while C-SCAN runs to step 4. -/
def uiStateShort : UIState :=
  { initialHead := 50, diskSize := 200,
    requests := [⟨"a", 98, 0⟩, ⟨"b", 14, 0⟩], direction := .right,
    isPlaying := false, currentStep := 4 }

/-- C8 counterexample: at the legitimate step index 4 (maxSteps - 1),
the platter headPos binding for FCFS falls back to the initial head 50
instead of the min-clamped final cylinder 14, so the displayed platter
position violates the sequence[min(i, len-1)] rule. -/
theorem platter_headpos_claim_false :
    uiStateShort.currentStep = maxSteps uiStateShort - 1 ∧
      platterHeadPos uiStateShort (calculateFCFS 50 uiStateShort.requests) = 50 ∧
      chartValue (calculateFCFS 50 uiStateShort.requests) uiStateShort.currentStep = 14 ∧
      ¬ (platterHeadPos uiStateShort (calculateFCFS 50 uiStateShort.requests)
        = chartValue (calculateFCFS 50 uiStateShort.requests) uiStateShort.currentStep) := by
  decide

/-- C8 (amended): invoking play() while currentStep is at the final
step maxSteps-1 first resets the step to 0 and then starts playing; the
trajectory chart displays sequence[min(i, sequence.length-1)], which is
the final cylinder once i is past the end and the plain entry
otherwise; the platter headPos binding instead shows sequence entry
currentStep only when it exists and is non-zero, falling back to the
initial head when the index is out of range or the entry is cylinder
0. -/
theorem playback_reset_and_display (st : UIState) (res : DiskResult) (i : Nat)
    (hplay : st.isPlaying = false) (hstep : maxSteps st - 1 ≤ st.currentStep) :
    ((handlePlayPause st).currentStep = 0 ∧ (handlePlayPause st).isPlaying = true) ∧
      (res.sequence.length ≤ i → res.sequence ≠ [] →
        chartValue res i = res.sequence.getLastD 0) ∧
      (i < res.sequence.length → chartValue res i = res.sequence.getD i 0) ∧
      (∀ v, res.sequence.get? st.currentStep = some v → v ≠ 0 →
        platterHeadPos st res = v) ∧
      (res.sequence.get? st.currentStep = none → platterHeadPos st res = st.initialHead) ∧
      (res.sequence.get? st.currentStep = some 0 → platterHeadPos st res = st.initialHead) := by
  refine ⟨⟨?_, ?_⟩, ?_, ?_, ?_, ?_, ?_⟩
  · simp only [handlePlayPause]
    rw [if_pos hstep]
  · simp only [handlePlayPause]
    show Bool.not st.isPlaying = true
    rw [hplay]
    rfl
  · intro hle hne
    rw [chartValue, min_eq_right (by omega), getD_length_pred res.sequence hne]
  · intro hlt
    rw [chartValue, min_eq_left (by omega)]
  · intro v hv hv0
    rw [platterHeadPos, hv]
    simp [hv0]
  · intro hv
    rw [platterHeadPos, hv]
  · intro hv
    rw [platterHeadPos, hv]
    simp

theorem playback_reset_and_display_witness :
    (handlePlayPause uiStateShort).currentStep = 0 ∧
      (handlePlayPause uiStateShort).isPlaying = true :=
  (playback_reset_and_display uiStateShort (calculateFCFS 50 uiStateShort.requests) 4
    rfl (by decide)).1

/-- C9: metricsData is the six declaration-ordered entries stably
sorted ascending by operationalTime — it is sorted, it is a permutation
of the declaration-ordered entries, and entries with any equal
operationalTime key keep their declaration order (filter-stability);
and on an empty request set the observation is the
awaiting-configuration message, not a ranking. -/
theorem metrics_sorted_stable_and_empty_observation (st : UIState) :
    (metricsData st).Pairwise (fun a b => a.operationalTime ≤ b.operationalTime) ∧
      (metricsData st).Perm ((computeResults st).map
        (fun p => MetricEntry.mk p.1 p.2.totalSeekCount p.2.totalOperationalTime)) ∧
      (∀ q : ℚ, (metricsData st).filter (fun e => decide (e.operationalTime = q))
        = ((computeResults st).map
            (fun p => MetricEntry.mk p.1 p.2.totalSeekCount p.2.totalOperationalTime)).filter
              (fun e => decide (e.operationalTime = q))) ∧
      (st.requests = [] → observation st = Observation.awaitingConfig) := by
  refine ⟨sortStable_pairwise _ _, sortStable_perm _ _,
    fun q => sortStable_filter _ q _, ?_⟩
  intro hreq
  rw [observation, if_pos hreq]

theorem metrics_sorted_stable_and_empty_observation_witness :
    observation uiStateEx = Observation.awaitingConfig :=
  (metrics_sorted_stable_and_empty_observation uiStateEx).2.2.2 rfl

end DiskSim
